import Mathlib

/-!
Verification development for the retl in-process tabular data engine.

The definitions below are a shallow embedding of the engine core:
the dynamic `Value`/`Num` type system (src/value/mod.rs, src/value/number.rs),
the `Schema`/`Field` metadata model (src/schema.rs), the `Dim` addressing
arithmetic (src/dim.rs), the `DataFrame` storage and mutation operations
(src/dataframe.rs), the cast permission tables and conversions
(src/ops/cast.rs), the column selection operation (src/ops/select.rs) and
the row iterator (src/views.rs).

Modelling conventions:
- Rust machine integers become `Nat`/`Int`; fallible conversions carry the
  explicit range checks performed by `TryInto`.
- The `f32`/`f64`/`Decimal` payloads are modelled by an `Int` identifier:
  every conversion the verified claims exercise is integer valued, and no
  claim inspects a fractional payload.  String-to-float parsing is likewise
  modelled as integer parsing; the affected branches are never evaluated by
  a theorem below.
- `HashMap<String, usize>` is modelled as an association list with unique
  keys where insertion replaces an existing binding; the source never
  iterates the map, so lookup/insert/remove semantics are all that matter.
- Mutating methods become state passing: a Rust `&mut self` method returning
  `T` becomes a Lean function returning the new value together with `T`.
-/

namespace Retl

/-- DataType enumeration from src/schema.rs. -/
inductive DataType where
  | bool
  | string
  | array
  | map
  | date
  | binary
  | uint8
  | uint16
  | uint32
  | uint64
  | int8
  | int16
  | int32
  | int64
  | float
  | double
  | decimal
  /-- a field can be weakly typed with any -/
  | any
  /-- a field should never be of type null; maps values to data types -/
  | null
deriving DecidableEq, Repr

/-- DataType::is_numeric from src/schema.rs. -/
def DataType.is_numeric : DataType → Bool
  | .int8 | .int16 | .int32 | .int64
  | .uint8 | .uint16 | .uint32 | .uint64
  | .float | .decimal | .double => true
  | _ => false

/-- Num from src/value/number.rs.  Integer variants carry their mathematical
value; float, double and decimal payloads are abstract `Int` identifiers (see
module conventions). -/
inductive Num where
  | uint8 (n : Int)
  | uint16 (n : Int)
  | uint32 (n : Int)
  | uint64 (n : Int)
  | int8 (n : Int)
  | int16 (n : Int)
  | int32 (n : Int)
  | int64 (n : Int)
  | float (x : Int)
  | double (x : Int)
  | decimal (x : Int)
deriving DecidableEq, Repr

/-- Number from src/value/number.rs: a transparent wrapper over Num. -/
structure Number where
  num : Num
deriving DecidableEq, Repr

/-- TypeOf for Num (src/value/number.rs). -/
def Num.type_of : Num → DataType
  | .uint8 _ => .uint8
  | .uint16 _ => .uint16
  | .uint32 _ => .uint32
  | .uint64 _ => .uint64
  | .int8 _ => .int8
  | .int16 _ => .int16
  | .int32 _ => .int32
  | .int64 _ => .int64
  | .float _ => .float
  | .double _ => .double
  | .decimal _ => .decimal

/-- TypeOf for Number delegates to the inner Num. -/
def Number.type_of (n : Number) : DataType :=
  n.num.type_of

/-- Value from src/value/mod.rs.  `date` carries the naive timestamp,
`map` the ordered key-value pairs, `binary` the byte sequence. -/
inductive Value where
  | null
  | bool (b : Bool)
  | string (s : String)
  | array (xs : List Value)
  | map (m : List (String × Value))
  | number (n : Number)
  | date (t : Int)
  | binary (bs : List Nat)

/-- TypeOf for Value (src/value/mod.rs).  The source match has a wildcard
arm `_ => DataType::Any`; the only variant reaching it is `Null`, so
`Value::Null` reports `DataType::Any`, never `DataType::Null`. -/
def Value.type_of : Value → DataType
  | .bool _ => .bool
  | .string _ => .string
  | .array _ => .array
  | .map _ => .map
  | .number n => n.type_of
  | .date _ => .date
  | .binary _ => .binary
  | .null => .any

/-- Num::to_string (src/value/number.rs); numeric Display is the decimal
form of the payload. -/
def Num.to_string : Num → String
  | .uint8 n | .uint16 n | .uint32 n | .uint64 n
  | .int8 n | .int16 n | .int32 n | .int64 n => toString n
  | .float x | .double x | .decimal x => toString x

/-- Number::to_string delegates to Num. -/
def Number.to_string (n : Number) : String :=
  n.num.to_string

/-- Display for Value (src/value/mod.rs). -/
def Value.to_string : Value → String
  | .null => "null"
  | .string s => s
  | .number n => n.to_string
  | .bool b => if b then "true" else "false"
  | .date t => toString t
  | .map _ => "display not implemented for map"
  | .array _ => "display not implemented for array"
  | .binary _ => "[bin data]"

/-- Field from src/schema.rs. -/
structure Field where
  name : String
  nullable : Bool
  default : Option Value
  doc : Option String
  dtype : DataType

/-- Field::new: nullable true, no default, no doc, weakly typed. -/
def Field.new (name : String) : Field :=
  { name := name, nullable := true, default := none, doc := none, dtype := .any }

/-- Field::with_type. -/
def Field.with_type (name : String) (dt : DataType) : Field :=
  { name := name, dtype := dt, nullable := true, default := none, doc := none }

/-- Lookup in the HashMap model: the value bound to the key, if present. -/
def hmGet (m : List (String × Nat)) (k : String) : Option Nat :=
  (m.find? (fun p => p.1 == k)).map (fun p => p.2)

/-- HashMap::insert model: replace the binding when the key is present,
otherwise add it. -/
def hmInsert (m : List (String × Nat)) (k : String) (v : Nat) : List (String × Nat) :=
  if m.any (fun p => p.1 == k) then
    m.map (fun p => if p.1 == k then (k, v) else p)
  else
    m ++ [(k, v)]

/-- HashMap::remove model: drop the binding for the key. -/
def hmErase (m : List (String × Nat)) (k : String) : List (String × Nat) :=
  m.filter (fun p => p.1 != k)

/-- Schema from src/schema.rs: field vector plus name-to-position index. -/
structure Schema where
  name : Option String
  doc : Option String
  fields : List Field
  index : List (String × Nat)

/-- Schema::default / Schema::new. -/
def Schema.new : Schema :=
  { name := none, doc := none, fields := [], index := [] }

/-- Schema::with_size only reserves capacity; the model is Schema::new. -/
def Schema.with_size (_size : Nat) : Schema :=
  Schema.new

/-- Schema::push_field: index the name at the current length, append the
field, return the position (state passing: new schema paired with the
returned index). -/
def Schema.push_field (s : Schema) (field : Field) : Schema × Nat :=
  let index := s.fields.length
  ({ s with index := hmInsert s.index field.name index,
            fields := s.fields ++ [field] }, index)

/-- Schema::add_field on a column name goes through Field::new. -/
def Schema.add_field (s : Schema) (name : String) : Schema × Nat :=
  s.push_field (Field.new name)

/-- Schema::find_index. -/
def Schema.find_index (s : Schema) (name : String) : Option Nat :=
  hmGet s.index name

/-- Schema::get_field_full: position from the index, then the field at that
position in the vector. -/
def Schema.get_field_full (s : Schema) (name : String) : Option (Nat × Field) :=
  (hmGet s.index name).bind fun i => (s.fields.get? i).map fun f => (i, f)

/-- Schema::get_field. -/
def Schema.get_field (s : Schema) (name : String) : Option Field :=
  (hmGet s.index name).bind fun i => s.fields.get? i

/-- Schema::find_by_index. -/
def Schema.find_by_index (s : Schema) (index : Nat) : Option Field :=
  s.fields.get? index

/-- Schema::field_names: position order of the field vector. -/
def Schema.field_names (s : Schema) : List String :=
  s.fields.map (fun f => f.name)

/-- Schema::len. -/
def Schema.len (s : Schema) : Nat :=
  s.fields.length

/-- Schema::get_field_mut modelled as an in-place update of the field found
through the index; when the name is absent nothing changes. -/
def Schema.modify_field (s : Schema) (name : String) (f : Field → Field) : Schema :=
  match hmGet s.index name with
  | none => s
  | some i =>
    match s.fields.get? i with
    | none => s
    | some fld => { s with fields := s.fields.set i (f fld) }

/-- Schema::remove: drop the name from the index and remove the field at the
indexed position.  The source never adjusts the positions recorded for the
remaining names.  (`Vec::remove` panics on a stale out-of-range position;
the model erases nothing in that case.) -/
def Schema.remove (s : Schema) (name : String) : Option Field × Schema :=
  match hmGet s.index name with
  | none => (none, s)
  | some i =>
    (s.fields.get? i,
     { s with index := hmErase s.index name, fields := s.fields.eraseIdx i })

/-- Schema::rename_field: rebind the position under the new name and rewrite
the field name in place; `None` when the old name is absent. -/
def Schema.rename_field (s : Schema) (old_name new_name : String) : Option String × Schema :=
  match hmGet s.index old_name with
  | none => (none, s)
  | some i =>
    let index := hmInsert (hmErase s.index old_name) new_name i
    match s.fields.get? i with
    | none => (some new_name, { s with index := index })
    | some fld =>
      (some new_name, { s with index := index, fields := s.fields.set i { fld with name := new_name } })

/-- Schema::is_weak: some field is still typed Any. -/
def Schema.is_weak (s : Schema) : Bool :=
  s.fields.any (fun field => field.dtype == .any)

/-- Dim from src/dim.rs: `.0` is the column count, `.1` the row count. -/
structure Dim where
  c0 : Nat
  c1 : Nat
deriving DecidableEq, Repr

/-- Dim::default. -/
def Dim.default : Dim := ⟨0, 0⟩

/-- Dim::expected_len. -/
def Dim.expected_len (d : Dim) : Nat :=
  d.c0 * d.c1

/-- Dim::get_row_range: start and end of a row in the flat buffer. -/
def Dim.get_row_range (d : Dim) (row : Nat) : Nat × Nat :=
  let i := d.c0 * row
  (i, i + d.c0)

/-- Dim::get_value_index: row-major position of a cell. -/
def Dim.get_value_index (d : Dim) (row_number column_index : Nat) : Nat :=
  row_number * d.c0 + column_index

/-- Dim::shape. -/
def Dim.shape (d : Dim) : Nat × Nat :=
  (d.c0, d.c1)

/-- The error enum used by src/dataframe.rs (crate::error::Error), with the
constructors appearing at its use sites. -/
inductive Error where
  | indexOutOfBounds (index : Nat) (length : Nat)
  | invalidDataLength (expected : Nat) (actual : Nat)
  | invalidColumnName (column : String)
deriving DecidableEq, Repr

/-- Vec::insert: place the element at position `i`, shifting the suffix. -/
def listInsertAt (xs : List α) (i : Nat) (a : α) : List α :=
  xs.take i ++ a :: xs.drop i

/-- Rust slice `xs[s..e]`. -/
def listSlice (xs : List α) (s e : Nat) : List α :=
  (xs.drop s).take (e - s)

/-- Iterator::step_by model, fuelled by the list length so the recursion is
structural: yield the head, then drop the next `k - 1` elements.  Every
step consumes at least one element, so the fuel never runs out at a
nonempty list.  The call sites always pass the positive column count. -/
def stepByAux (fuel : Nat) (xs : List α) (k : Nat) : List α :=
  match fuel, xs with
  | 0, _ => []
  | _, [] => []
  | fuel + 1, a :: rest => a :: stepByAux fuel (rest.drop (k - 1)) k

/-- Iterator::step_by: every `k`-th element starting at the head. -/
def stepBy (xs : List α) (k : Nat) : List α :=
  stepByAux xs.length xs k

/-- DataFrame from src/dataframe.rs: flat value buffer, dimensions, schema. -/
structure DataFrame where
  data : List Value
  dim : Dim
  schema : Schema

/-- DataFrame::default / DataFrame::empty. -/
def DataFrame.empty : DataFrame :=
  { data := [], dim := Dim.default, schema := Schema.new }

/-- DataFrame::new: dimensions from the argument lengths, buffer from the
flattened rows, schema from add_field on each column name.  The source
performs no validation of the row lengths (the TODO at the flattening site
is unresolved). -/
def DataFrame.new (columns : List String) (data : List (List Value)) : DataFrame :=
  let dim : Dim := ⟨columns.length, data.length⟩
  let flat := data.flatten
  let schema := columns.foldl (fun s col => (s.add_field col).1) Schema.new
  { data := flat, dim := dim, schema := schema }

/-- DataFrame::with_columns. -/
def DataFrame.with_columns (columns : List String) : DataFrame :=
  DataFrame.new columns []

/-- DataFrame::shape. -/
def DataFrame.shape (df : DataFrame) : Nat × Nat :=
  df.dim.shape

/-- DataFrame::row: `None` when the row range exceeds the buffer. -/
def DataFrame.row (df : DataFrame) (row : Nat) : Option (List Value) :=
  let r := df.dim.get_row_range row
  if df.data.length < r.2 then none
  else some (listSlice df.data r.1 r.2)

/-- DataFrame::column_values: skip to the column offset then step by the
schema length. -/
def DataFrame.column_values (df : DataFrame) (column : String) : Except Error (List Value) :=
  match df.schema.find_index column with
  | none => .error (.invalidColumnName column)
  | some index => .ok (stepBy (df.data.drop index) df.schema.len)

/-- DataFrame::push_row_unchecked: append the row, bump the row count. -/
def DataFrame.push_row_unchecked (df : DataFrame) (data : List Value) : DataFrame :=
  { df with data := df.data ++ data, dim := ⟨df.dim.c0, df.dim.c1 + 1⟩ }

/-- DataFrame::push_row: reject a row whose length differs from the column
count, otherwise append it.  The pair holds the Rust return value and the
frame after the call. -/
def DataFrame.push_row (df : DataFrame) (data : List Value) : Except Error Nat × DataFrame :=
  if data.length ≠ df.dim.c0 then
    (.error (.invalidDataLength df.dim.c0 data.length), df)
  else
    let df1 := df.push_row_unchecked data
    (.ok df1.dim.c1, df1)

/-- DataFrame::extend_unchecked. -/
def DataFrame.extend_unchecked (df : DataFrame) (data : List (List Value)) : DataFrame :=
  { df with dim := ⟨df.dim.c0, df.dim.c1 + data.length⟩, data := df.data ++ data.flatten }

/-- DataFrame::extend: find the first row of wrong length and fail with it,
otherwise extend with the whole batch. -/
def DataFrame.extend (df : DataFrame) (data : List (List Value)) : Except Error Nat × DataFrame :=
  match data.find? (fun r => r.length != df.dim.c0) with
  | some invalid_row => (.error (.invalidDataLength df.dim.c0 invalid_row.length), df)
  | none =>
    let df1 := df.extend_unchecked data
    (.ok df1.dim.c1, df1)

/-- The body of the per-row loop in DataFrame::push_column: insert Null at
the cell index of the new column in this row, or push when the index would
exceed the current buffer length. -/
def push_column_step (dim : Dim) (col_index : Nat) (buf : List Value) (row_num : Nat) : List Value :=
  let index := dim.get_value_index row_num col_index
  if index > buf.length then buf ++ [Value.null]
  else listInsertAt buf index Value.null

/-- DataFrame::push_column: add the field, bump the column count first, then
walk the rows in ascending order inserting Null at the new last column of
each row, computing offsets from the updated dimensions. -/
def DataFrame.push_column (df : DataFrame) (column : String) : DataFrame :=
  let schema := (df.schema.add_field column).1
  let dim : Dim := ⟨df.dim.c0 + 1, df.dim.c1⟩
  let col_count := dim.c0
  let col_index := col_count - 1
  let data := (List.range df.dim.c1).foldl (push_column_step dim col_index) df.data
  { data := data, dim := dim, schema := schema }

/-- One step of the per-column scan in DataFrame::derive_schema.  The state
is (dtype, strict_dtype, is_nullable); the match arms are in source order:
a weakly typed column adopts the type of the value, a value of type Null
marks the column nullable, any other mismatch drops the strict flag. -/
def deriveStep (st : DataType × Bool × Bool) (v : Value) : DataType × Bool × Bool :=
  match st.1, v.type_of with
  | .any, vtype => (vtype, st.2.1, st.2.2)
  | _, .null => (st.1, st.2.1, true)
  | col_type, vtype =>
    if col_type ≠ vtype then (st.1, false, st.2.2) else st

/-- DataFrame::derive_schema: for each field name, fold the column values
and write the derived dtype and nullability back into the schema.  The
source reads `strict_dtype` into no decision, exactly as modelled.  The
source unwraps column_values; the keys come from the schema itself, and on
the (panicking) error path the model leaves the column unchanged. -/
def DataFrame.derive_schema (df : DataFrame) : DataFrame :=
  let keys := df.schema.field_names
  keys.foldl
    (fun df key =>
      match df.column_values key with
      | .error _ => df
      | .ok vals =>
        let st := vals.foldl deriveStep (DataType.any, true, false)
        { df with schema :=
            df.schema.modify_field key (fun f => { f with dtype := st.1, nullable := st.2.2 }) })
    df

/-- View::new (src/views.rs): a fresh iterator starts at row pointer 0. -/
def View.new (_df : DataFrame) : Nat :=
  0

/-- View::next (src/views.rs): end of sequence once the row range passes the
end of the buffer, otherwise the row slice and the advanced pointer. -/
def View.next (df : DataFrame) (ptr : Nat) : Option (List Value × Nat) :=
  let r := df.dim.get_row_range ptr
  if r.2 > df.data.length then none
  else some (listSlice df.data r.1 r.2, ptr + 1)

/-- The error enum of src/value/number.rs. -/
inductive NumError where
  | infallible
  | castError (description : String)
  | illegalConversion
  | illegalOperation
  | opFailed
  | parseStringError (string_source : String) (destination_type : DataType)
  | parseIntError (from_str : String)
  | parseFloatError (from_str : String)
  | parseDecimalError (from_str : String) (description : String)
  | invalidDataType (datatype : DataType)
deriving DecidableEq, Repr

/-- The error enum of src/ops/cast.rs. -/
inductive CastError where
  | illegalCast (source_type : DataType) (dest_type : DataType)
  | failedNumericCast (source : NumError)
  | invalidNumericCast
deriving DecidableEq, Repr

/-- Description of std::num::TryFromIntError, carried by the CastError the
cast_num macro produces on a failed narrowing. -/
def try_from_int_error_description : String :=
  "out of range integral type conversion attempted"

/-- can_cast (src/ops/cast.rs): the static widening-permission table.  The
castable macro matches on (to, from); the entries below are the source rows
verbatim (the duplicate Uint16 entry of the Float row collapses). -/
def can_cast (src dst : DataType) : Bool :=
  match dst, src with
  | .int64, .bool | .int64, .uint8 | .int64, .uint16 | .int64, .uint32
  | .int64, .int8 | .int64, .int16 | .int64, .int32 | .int64, .float
  | .int64, .decimal => true
  | .int32, .bool | .int32, .uint8 | .int32, .uint16 | .int32, .int8
  | .int32, .int16 => true
  | .int16, .bool | .int16, .uint8 | .int16, .int8 => true
  | .int8, .bool => true
  | .uint64, .bool | .uint64, .uint8 | .uint64, .uint16 | .uint64, .uint32 => true
  | .uint32, .bool | .uint32, .uint8 | .uint32, .uint16 => true
  | .uint16, .bool | .uint16, .uint8 => true
  | .uint8, .bool => true
  | .float, .uint8 | .float, .uint16 | .float, .int8 => true
  | .double, .uint8 | .double, .uint16 | .double, .uint32 | .double, .int8
  | .double, .int16 | .double, .int32 | .double, .float => true
  | .string, .bool | .string, .uint8 | .string, .uint16 | .string, .uint32
  | .string, .uint64 | .string, .int8 | .string, .int16 | .string, .int32
  | .string, .int64 => true
  | _, _ => false

/-- can_try_cast (src/ops/cast.rs): the runtime-checked narrowing table. -/
def can_try_cast (src dst : DataType) : Bool :=
  match dst, src with
  | .uint64, .string | .uint64, .int8 | .uint64, .int16 | .uint64, .int32
  | .uint64, .int64 => true
  | .uint32, .string | .uint32, .int8 | .uint32, .int16 | .uint32, .int32
  | .uint32, .int64 | .uint32, .uint64 => true
  | .uint16, .string | .uint16, .int8 | .uint16, .int16 | .uint16, .int32
  | .uint16, .int64 | .uint16, .uint32 | .uint16, .uint64 => true
  | .uint8, .string | .uint8, .int8 | .uint8, .int16 | .uint8, .int32
  | .uint8, .int64 | .uint8, .uint16 | .uint8, .uint32 | .uint8, .uint64 => true
  | .int64, .string | .int64, .uint64 => true
  | .int32, .string | .int32, .uint64 | .int32, .uint32 | .int32, .int64 => true
  | .int16, .string | .int16, .uint64 | .int16, .uint32 | .int16, .uint16
  | .int16, .int64 | .int16, .int32 => true
  | .int8, .string | .int8, .uint64 | .int8, .uint32 | .int8, .uint16
  | .int8, .uint8 | .int8, .int64 | .int8, .int32 | .int8, .int16 => true
  | _, _ => false

/-- The integer payload of a Num, when the variant is a fixed-width
integer.  Float, double and decimal variants have none, matching the
wildcard arm of the cast_num macro. -/
def Num.int_payload : Num → Option Int
  | .uint8 n | .uint16 n | .uint32 n | .uint64 n
  | .int8 n | .int16 n | .int32 n | .int64 n => some n
  | _ => none

/-- The cast_num macro of src/value/number.rs: TryInto from any integer
variant into the target width, failing with the TryFromIntError-derived
CastError when the payload is out of range; non-integer variants fail with
IllegalConversion. -/
def cast_num (val : Num) (lo hi : Int) (mk : Int → Num) : Except NumError Number :=
  match val.int_payload with
  | none => .error .illegalConversion
  | some i =>
    if lo ≤ i ∧ i ≤ hi then .ok ⟨mk i⟩
    else .error (.castError try_from_int_error_description)

/-- Number::into_uint8. -/
def Number.into_uint8 (self : Number) : Except NumError Number :=
  cast_num self.num 0 255 Num.uint8

/-- Number::into_uint16. -/
def Number.into_uint16 (self : Number) : Except NumError Number :=
  cast_num self.num 0 65535 Num.uint16

/-- Number::into_uint32. -/
def Number.into_uint32 (self : Number) : Except NumError Number :=
  cast_num self.num 0 4294967295 Num.uint32

/-- Number::into_uint64. -/
def Number.into_uint64 (self : Number) : Except NumError Number :=
  cast_num self.num 0 18446744073709551615 Num.uint64

/-- Number::into_int8. -/
def Number.into_int8 (self : Number) : Except NumError Number :=
  cast_num self.num (-128) 127 Num.int8

/-- Number::into_int16. -/
def Number.into_int16 (self : Number) : Except NumError Number :=
  cast_num self.num (-32768) 32767 Num.int16

/-- Number::into_int32. -/
def Number.into_int32 (self : Number) : Except NumError Number :=
  cast_num self.num (-2147483648) 2147483647 Num.int32

/-- Number::into_int64. -/
def Number.into_int64 (self : Number) : Except NumError Number :=
  cast_num self.num (-9223372036854775808) 9223372036854775807 Num.int64

/-- Number::into_float.  In the integer-payload model the exact widenings
carry the payload across; the decimal branch (to_f32, an Option in the
source) always carries the identifier over, a branch no claim evaluates. -/
def Number.into_float (self : Number) : Except NumError Number :=
  match self.num with
  | .uint8 n | .uint16 n | .int8 n | .int16 n => .ok ⟨.float n⟩
  | .float n => .ok ⟨.float n⟩
  | .decimal n => .ok ⟨.float n⟩
  | _ => .error .illegalConversion

/-- Number::into_double, same conventions as into_float. -/
def Number.into_double (self : Number) : Except NumError Number :=
  match self.num with
  | .uint8 n | .uint16 n | .int8 n | .int16 n => .ok ⟨.double n⟩
  | .float n => .ok ⟨.double n⟩
  | .double n => .ok ⟨.double n⟩
  | .uint32 n => .ok ⟨.double n⟩
  | .int32 n => .ok ⟨.double n⟩
  | .decimal n => .ok ⟨.double n⟩
  | _ => .error .illegalConversion

/-- Number::into_decimal: every variant converts; the float/double
branches (Options in the source) carry the identifier over. -/
def Number.into_decimal (self : Number) : Except NumError Number :=
  match self.num with
  | .uint8 n | .uint16 n | .uint32 n | .uint64 n
  | .int8 n | .int16 n | .int32 n | .int64 n => .ok ⟨.decimal n⟩
  | .float n | .double n => .ok ⟨.decimal n⟩
  | .decimal n => .ok ⟨.decimal n⟩

/-- Rust integer FromStr, modelled as Lean integer parsing plus the range
check the target width performs; both failure modes surface as the same
ParseIntError kind. -/
def parse_int_range (s : String) (lo hi : Int) (mk : Int → Num) : Except NumError Number :=
  match s.toInt? with
  | none => .error (.parseIntError s)
  | some i =>
    if lo ≤ i ∧ i ≤ hi then .ok ⟨mk i⟩
    else .error (.parseIntError s)

/-- Number::from_str (src/value/number.rs): dispatch on the destination
type to the native parse rule of that type.  Float, double and decimal strings
are modelled as integer parses (see module conventions); no verified claim
evaluates those branches. -/
def Number.from_str (s : String) (dtype : DataType) : Except NumError Number :=
  match dtype with
  | .uint8 => parse_int_range s 0 255 Num.uint8
  | .uint16 => parse_int_range s 0 65535 Num.uint16
  | .uint32 => parse_int_range s 0 4294967295 Num.uint32
  | .uint64 => parse_int_range s 0 18446744073709551615 Num.uint64
  | .int8 => parse_int_range s (-128) 127 Num.int8
  | .int16 => parse_int_range s (-32768) 32767 Num.int16
  | .int32 => parse_int_range s (-2147483648) 2147483647 Num.int32
  | .int64 => parse_int_range s (-9223372036854775808) 9223372036854775807 Num.int64
  | .float =>
    match s.toInt? with
    | some i => .ok ⟨.float i⟩
    | none => .error (.parseFloatError s)
  | .double =>
    match s.toInt? with
    | some i => .ok ⟨.double i⟩
    | none => .error (.parseFloatError s)
  | .decimal =>
    match s.toInt? with
    | some i => .ok ⟨.decimal i⟩
    | none => .error (.parseDecimalError s "parse failure")
  | _ => .error (.invalidDataType dtype)

/-- The inner dispatch of into_number on the destination type.  The
wildcard arm is the source panic, unreachable because into_number guards on
is_numeric before dispatching. -/
def num_cast_branch (num : Number) (into_type : DataType) : Except NumError Number :=
  match into_type with
  | .uint8 => num.into_uint8
  | .uint16 => num.into_uint16
  | .uint32 => num.into_uint32
  | .uint64 => num.into_uint64
  | .int8 => num.into_int8
  | .int16 => num.into_int16
  | .int32 => num.into_int32
  | .int64 => num.into_int64
  | .float => num.into_float
  | .double => num.into_double
  | .decimal => num.into_decimal
  | _ => .error .illegalConversion

/-- into_number (src/ops/cast.rs): reject non-numeric destinations, convert
Number payloads through the width-specific checked casts, parse Strings,
route Bools through a Uint8, and reject everything else as an illegal
cast.  The source routes Bool through a recursive call on
`Number(Uint8(0|1))`; under the numeric guard that call reduces to the
Number branch, written out here so the recursion stays structural. -/
def into_number (value : Value) (into_type : DataType) : Except CastError Value :=
  if !into_type.is_numeric then .error .invalidNumericCast
  else
    match value with
    | .number num =>
      match num_cast_branch num into_type with
      | .ok num => .ok (.number num)
      | .error err => .error (.failedNumericCast err)
    | .string s =>
      match Number.from_str s into_type with
      | .ok num => .ok (.number num)
      | .error e => .error (.failedNumericCast e)
    | .bool b =>
      match num_cast_branch ⟨.uint8 (if b then 1 else 0)⟩ into_type with
      | .ok num => .ok (.number num)
      | .error err => .error (.failedNumericCast err)
    | v => .error (.illegalCast v.type_of into_type)

/-- into_string (src/ops/cast.rs): total Display-based conversion. -/
def into_string (value : Value) : Except CastError Value :=
  .ok (.string value.to_string)

/-- try_cast (src/ops/cast.rs): reject immediately when neither permission
table allows the pair, otherwise dispatch to numeric or string conversion.
The final wildcard is the source unimplemented-panic arm, unreachable
because every permitted destination is numeric or String. -/
def try_cast (value : Value) (dtype : DataType) : Except CastError Value :=
  let cast_allowed := can_cast value.type_of dtype
  let try_cast_allowed := can_try_cast value.type_of dtype
  if !cast_allowed && !try_cast_allowed then
    .error (.illegalCast value.type_of dtype)
  else if dtype.is_numeric then
    into_number value dtype
  else
    match dtype with
    | .string => into_string value
    | _ => .error (.illegalCast value.type_of dtype)

/-- cast_or_default (src/ops/cast.rs). -/
def cast_or_default (value : Value) (dtype : DataType) (default : Value) : Value :=
  match try_cast value dtype with
  | .ok value => value
  | .error _ => default

/-- safe_cast (src/ops/cast.rs): cast_or_default with Null. -/
def safe_cast (value : Value) (dtype : DataType) : Value :=
  cast_or_default value dtype .null

/-- The error enum of src/ops/select.rs. -/
inductive SelectError where
  | invalidColumnName (name : String)
deriving DecidableEq, Repr

/-- The Select column spec of src/ops/select.rs: a bare name or an
(original-name, alias) pair. -/
inductive SelectSpec where
  | name (s : String)
  | alias (original : String) (aliased : String)
deriving DecidableEq, Repr

/-- Select::name: the column looked up in the source schema. -/
def SelectSpec.sname : SelectSpec → String
  | .name s => s
  | .alias original _ => original

/-- Select::with_name: the name the column carries in the output. -/
def SelectSpec.with_name : SelectSpec → String
  | .name s => s
  | .alias _ aliased => aliased

/-- Rust `collect::<Result<Vec<_>, _>>()`: stop at the first error,
otherwise keep every result in order. -/
def collectResults (f : α → Except ε β) : List α → Except ε (List β)
  | [] => .ok []
  | a :: as_ =>
    match f a with
    | .error e => .error e
    | .ok b =>
      match collectResults f as_ with
      | .error e => .error e
      | .ok bs => .ok (b :: bs)

/-- Resolution of one spec inside select: position and field from the
source schema, with the field renamed to the requested output name. -/
def resolveSpec (df : DataFrame) (s : SelectSpec) : Except SelectError (Nat × Field) :=
  match df.schema.get_field_full s.sname with
  | none => .error (.invalidColumnName s.sname)
  | some (pos, field) => .ok (pos, { field with name := s.with_name })

/-- select (src/ops/select.rs): resolve every spec eagerly, build the output
schema by pushing the renamed fields in the requested order, then re-walk
the source buffer row by row copying the selected column offsets into a new
buffer.  The source indexes the buffer directly; the model totalizes the
(in-bounds at every resolvable position under the layout invariant) read
with a Null default. -/
def select (df : DataFrame) (sel : List SelectSpec) : Except SelectError DataFrame :=
  match collectResults (resolveSpec df) sel with
  | .error e => .error e
  | .ok columns =>
    let schema := columns.foldl (fun sc pf => (sc.push_field pf.2).1) (Schema.with_size columns.length)
    let fields := columns.map (fun pf => pf.1)
    let data := (List.range df.dim.c1).foldl
      (fun acc i =>
        let offset := df.dim.c0 * i
        acc ++ fields.map (fun col_index => df.data.getD (col_index + offset) Value.null))
      []
    let dim : Dim := ⟨schema.len, df.dim.c1⟩
    .ok { schema := schema, dim := dim, data := data }

/-- The per-target payload range of the fixed-width integer DataTypes,
mirroring the bounds enforced by TryInto in the cast_num macro. -/
def int_bounds : DataType → Option (Int × Int)
  | .uint8 => some (0, 255)
  | .uint16 => some (0, 65535)
  | .uint32 => some (0, 4294967295)
  | .uint64 => some (0, 18446744073709551615)
  | .int8 => some (-128, 127)
  | .int16 => some (-32768, 32767)
  | .int32 => some (-2147483648, 2147483647)
  | .int64 => some (-9223372036854775808, 9223372036854775807)
  | _ => none

/-- A four-row, three-column frame matching the select example of the spec:
columns a, b, c with rows (0,1,2), (3,4,5), (6,7,8), (9,10,11). -/
def exDf : DataFrame :=
  DataFrame.new ["a", "b", "c"]
    [[.number ⟨.int32 0⟩, .number ⟨.int32 1⟩, .number ⟨.int32 2⟩],
     [.number ⟨.int32 3⟩, .number ⟨.int32 4⟩, .number ⟨.int32 5⟩],
     [.number ⟨.int32 6⟩, .number ⟨.int32 7⟩, .number ⟨.int32 8⟩],
     [.number ⟨.int32 9⟩, .number ⟨.int32 10⟩, .number ⟨.int32 11⟩]]

/-- A one-column, one-row frame used by witnesses. -/
def oneColDf : DataFrame :=
  DataFrame.new ["a"] [[.number ⟨.int32 1⟩]]

/-- Claim C9: `type_of` on `Value::Null` returns `DataType::Any`, not
`DataType::Null` — the Null variant falls into the wildcard arm of the
type_of match, and no Value at all reports `DataType::Null`, so no public
operation ever observes `DataType::Null` for a Null value. -/
theorem type_of_null_is_any :
    Value.type_of .null = DataType.any ∧
    DataType.any ≠ DataType.null ∧
    ∀ v : Value, v.type_of ≠ DataType.null := by
  refine ⟨rfl, by decide, ?_⟩
  intro v
  cases v <;> try simp [Value.type_of]
  rename_i n
  obtain ⟨num⟩ := n
  cases num <;> simp [Value.type_of, Number.type_of, Num.type_of]

/-- Claim C10: `DataFrame::new` performs no shape validation — for every
columns list and every list of rows, including ragged rows, the shape is
(len columns, len rows) and the buffer is the concatenation of the given
rows; in particular a ragged input yields a buffer whose length differs
from the product of the dimensions. -/
theorem dataframe_new_unvalidated :
    (∀ (columns : List String) (rows : List (List Value)),
        (DataFrame.new columns rows).shape = (columns.length, rows.length) ∧
        (DataFrame.new columns rows).data = rows.flatten) ∧
    (DataFrame.new ["a"] [[.null, .null]]).data.length = 2 ∧
    (DataFrame.new ["a"] [[.null, .null]]).dim.expected_len = 1 :=
  ⟨fun _ _ => ⟨rfl, rfl⟩, rfl, rfl⟩

/-- Claim C2 (evaluated): cast idempotence FAILS on the code.  Neither
can_cast nor can_try_cast contains a same-type pair, so `try_cast(v,
type_of(v))` always returns IllegalCast instead of `v`; in particular
casting `Uint8(5)` to `Uint8` errors rather than returning the value
unchanged. -/
theorem try_cast_same_type_rejected :
    (∀ v : Value, try_cast v v.type_of = .error (.illegalCast v.type_of v.type_of)) ∧
    try_cast (.number ⟨.uint8 5⟩) .uint8 = .error (.illegalCast .uint8 .uint8) := by
  refine ⟨?_, rfl⟩
  intro v
  cases v <;> try rfl
  rename_i n
  obtain ⟨num⟩ := n
  cases num <;> rfl

/-- Claim C1 (evaluated): `derive_schema` on a column of Uint32 values
[1, 2, 3] derives (Uint32, nullable = false) as the claim states; but on
[1, Null, 3] it also derives (Uint32, nullable = false) — the Null value
reports type Any, so the `(_, DataType::Null)` arm never fires — and on
[1, "x"] it still writes dtype Uint32 instead of leaving the field weakly
typed, because the strict_dtype flag is computed but never used. -/
theorem derive_schema_bug_eval :
    (((DataFrame.new ["a"]
        [[.number ⟨.uint32 1⟩], [.number ⟨.uint32 2⟩], [.number ⟨.uint32 3⟩]]).derive_schema.schema.get_field
          "a").map (fun f => (f.dtype, f.nullable)) = some (.uint32, false)) ∧
    (((DataFrame.new ["a"]
        [[.number ⟨.uint32 1⟩], [.null], [.number ⟨.uint32 3⟩]]).derive_schema.schema.get_field
          "a").map (fun f => (f.dtype, f.nullable)) = some (.uint32, false)) ∧
    (((DataFrame.new ["a"]
        [[.number ⟨.uint32 1⟩], [.string "x"]]).derive_schema.schema.get_field
          "a").map (fun f => (f.dtype, f.nullable)) = some (.uint32, false)) :=
  ⟨rfl, rfl, rfl⟩

/-- Claim C3 (evaluated): the schema invariant FAILS after `remove`.
Pushing fields a, b and then removing a leaves the index entry for b at
position 1 while the field vector holds b at position 0; find_index
disagrees with the vector and even get_field can no longer find b. -/
theorem schema_remove_leaves_stale_index :
    ((((Schema.new.push_field (Field.new "a")).1.push_field (Field.new "b")).1.remove "a").2.field_names
        = ["b"]) ∧
    ((((Schema.new.push_field (Field.new "a")).1.push_field (Field.new "b")).1.remove "a").2.find_index "b"
        = some 1) ∧
    ((((Schema.new.push_field (Field.new "a")).1.push_field (Field.new "b")).1.remove "a").2.fields.get? 1
        = none) ∧
    ((((Schema.new.push_field (Field.new "a")).1.push_field (Field.new "b")).1.remove "a").2.get_field "b"
        = none) :=
  ⟨rfl, rfl, rfl, rfl⟩

/-- Claim C4, counterexample: on the empty frame (zero columns, zero rows)
the row-count is 0, yet the first `next` already yields a row slice instead
of end-of-sequence — iteration of a zero-column frame never terminates, so
the claim as universally stated is false. -/
theorem view_iteration_infinite_on_empty_frame :
    DataFrame.empty.dim.c1 = 0 ∧
    View.next DataFrame.empty (View.new DataFrame.empty) = some ([], 1) :=
  ⟨rfl, rfl⟩

/-- Claim C4, amended: for every DataFrame with at least one column whose
buffer satisfies the layout invariant, a fresh iterator starts at row 0,
`next` yields the row slices 0 through row_count - 1 in order, and at any
pointer at or past row_count it yields end-of-sequence (never an error or
panic). -/
theorem view_iteration_spec (df : DataFrame) (p : Nat)
    (hc : 0 < df.dim.c0) (hlen : df.data.length = df.dim.c0 * df.dim.c1) :
    View.new df = 0 ∧
    (p < df.dim.c1 →
      View.next df p
        = some (listSlice df.data (df.dim.c0 * p) (df.dim.c0 * p + df.dim.c0), p + 1)) ∧
    (df.dim.c1 ≤ p → View.next df p = none) := by
  refine ⟨rfl, ?_, ?_⟩
  · intro hp
    have h1 : df.dim.c0 * p + df.dim.c0 ≤ df.data.length := by
      rw [hlen, ← Nat.mul_succ]
      exact Nat.mul_le_mul (Nat.le_refl _) hp
    simp only [View.next, Dim.get_row_range]
    rw [if_neg (by omega)]
  · intro hp
    have h2 : df.data.length < df.dim.c0 * p + df.dim.c0 := by
      rw [hlen]
      have : df.dim.c0 * df.dim.c1 ≤ df.dim.c0 * p := Nat.mul_le_mul (Nat.le_refl _) hp
      omega
    simp only [View.next, Dim.get_row_range]
    rw [if_pos (by omega)]

/-- Witness for view_iteration_spec at the concrete four-row frame. -/
theorem view_iteration_spec_witness :
    View.new exDf = 0 ∧
    View.next exDf 0 = some (listSlice exDf.data 0 3, 1) ∧
    View.next exDf 4 = none := by
  refine ⟨(view_iteration_spec exDf 0 (by decide) rfl).1, ?_, ?_⟩
  · exact (view_iteration_spec exDf 0 (by decide) rfl).2.1 (by decide)
  · exact (view_iteration_spec exDf 4 (by decide) rfl).2.2 (by decide)

/-- Claim C6: `push_row` with a row whose length differs from the column
count fails with InvalidDataLength carrying the column count and the row
length, and the frame is unchanged; `extend` with a batch containing any
wrong-length row fails the same way (naming the first such row) and applies
none of the batch. -/
theorem push_row_extend_reject :
    (∀ (df : DataFrame) (row : List Value), row.length ≠ df.dim.c0 →
        df.push_row row = (.error (.invalidDataLength df.dim.c0 row.length), df)) ∧
    (∀ (df : DataFrame) (rows : List (List Value)),
        (∃ r ∈ rows, r.length ≠ df.dim.c0) →
        ∃ bad ∈ rows, bad.length ≠ df.dim.c0 ∧
          df.extend rows = (.error (.invalidDataLength df.dim.c0 bad.length), df)) := by
  constructor
  · intro df row h
    simp only [DataFrame.push_row]
    rw [if_pos h]
  · intro df rows h
    have hs : (rows.find? (fun r => r.length != df.dim.c0)).isSome := by
      rw [List.find?_isSome]
      obtain ⟨r, hr, hne⟩ := h
      exact ⟨r, hr, by simpa using hne⟩
    obtain ⟨bad, heq⟩ := Option.isSome_iff_exists.mp hs
    refine ⟨bad, List.mem_of_find?_eq_some heq, ?_, ?_⟩
    · have hp := List.find?_some heq
      simpa using hp
    · simp only [DataFrame.extend]
      rw [heq]

/-- Witness for push_row_extend_reject at a one-column frame and a
two-element row. -/
theorem push_row_extend_reject_witness :
    (oneColDf.push_row [.null, .null]
        = (.error (.invalidDataLength oneColDf.dim.c0 2), oneColDf)) ∧
    (∃ bad ∈ [[Value.null, Value.null]], bad.length ≠ oneColDf.dim.c0 ∧
        oneColDf.extend [[.null, .null]]
          = (.error (.invalidDataLength oneColDf.dim.c0 bad.length), oneColDf)) :=
  ⟨push_row_extend_reject.1 oneColDf [.null, .null] (by decide),
   push_row_extend_reject.2 oneColDf [[.null, .null]]
     ⟨[.null, .null], List.mem_singleton.mpr rfl, by decide⟩⟩

/-- The cast_num macro rejects any integer payload outside the target
range with the TryFromIntError-derived CastError. -/
theorem cast_num_out_of_range (num : Num) (lo hi : Int) (mk : Int → Num) (i : Int)
    (hp : num.int_payload = some i) (hr : i < lo ∨ hi < i) :
    cast_num num lo hi mk = .error (.castError try_from_int_error_description) := by
  unfold cast_num
  rw [hp]
  have hn : ¬(lo ≤ i ∧ i ≤ hi) := by omega
  simp [hn]

/-- A failing width-specific conversion surfaces from into_number as a
FailedNumericCast. -/
theorem into_number_error_of_branch (num : Number) (t : DataType) (e : NumError)
    (ht : t.is_numeric = true) (h : num_cast_branch num t = .error e) :
    into_number (.number num) t = .error (.failedNumericCast e) := by
  unfold into_number
  rw [ht]
  simp [h]

/-- Claim C5: narrowing numeric casts are checked, never truncating.
Casting Int32(300) to Uint8 is permitted by can_try_cast (not by can_cast)
and fails with a FailedNumericCast wrapping the out-of-range cast error —
it does not wrap around to 44.  In general, converting any fixed-width
integer payload to an integer target whose range it exceeds is rejected
with the same error. -/
theorem narrowing_casts_checked :
    (try_cast (.number ⟨.int32 300⟩) .uint8
        = .error (.failedNumericCast (.castError try_from_int_error_description))) ∧
    can_try_cast .int32 .uint8 = true ∧
    can_cast .int32 .uint8 = false ∧
    (∀ (num : Num) (t : DataType) (lo hi i : Int),
        int_bounds t = some (lo, hi) → num.int_payload = some i → (i < lo ∨ hi < i) →
        into_number (.number ⟨num⟩) t
          = .error (.failedNumericCast (.castError try_from_int_error_description))) := by
  refine ⟨rfl, rfl, rfl, ?_⟩
  intro num t lo hi i hb hp hr
  cases t <;> simp only [int_bounds, Option.some.injEq, Prod.mk.injEq, reduceCtorEq] at hb
  case uint8 =>
    obtain ⟨rfl, rfl⟩ := hb
    exact into_number_error_of_branch ⟨num⟩ _ _ rfl
      (cast_num_out_of_range num _ _ Num.uint8 i hp (by omega))
  case uint16 =>
    obtain ⟨rfl, rfl⟩ := hb
    exact into_number_error_of_branch ⟨num⟩ _ _ rfl
      (cast_num_out_of_range num _ _ Num.uint16 i hp (by omega))
  case uint32 =>
    obtain ⟨rfl, rfl⟩ := hb
    exact into_number_error_of_branch ⟨num⟩ _ _ rfl
      (cast_num_out_of_range num _ _ Num.uint32 i hp (by omega))
  case uint64 =>
    obtain ⟨rfl, rfl⟩ := hb
    exact into_number_error_of_branch ⟨num⟩ _ _ rfl
      (cast_num_out_of_range num _ _ Num.uint64 i hp (by omega))
  case int8 =>
    obtain ⟨rfl, rfl⟩ := hb
    exact into_number_error_of_branch ⟨num⟩ _ _ rfl
      (cast_num_out_of_range num _ _ Num.int8 i hp (by omega))
  case int16 =>
    obtain ⟨rfl, rfl⟩ := hb
    exact into_number_error_of_branch ⟨num⟩ _ _ rfl
      (cast_num_out_of_range num _ _ Num.int16 i hp (by omega))
  case int32 =>
    obtain ⟨rfl, rfl⟩ := hb
    exact into_number_error_of_branch ⟨num⟩ _ _ rfl
      (cast_num_out_of_range num _ _ Num.int32 i hp (by omega))
  case int64 =>
    obtain ⟨rfl, rfl⟩ := hb
    exact into_number_error_of_branch ⟨num⟩ _ _ rfl
      (cast_num_out_of_range num _ _ Num.int64 i hp (by omega))

/-- Witness for narrowing_casts_checked: Int64(400) does not fit Uint8. -/
theorem narrowing_casts_checked_witness :
    into_number (.number ⟨.int64 400⟩) .uint8
      = .error (.failedNumericCast (.castError try_from_int_error_description)) :=
  narrowing_casts_checked.2.2.2 (.int64 400) .uint8 0 255 400 rfl rfl (by decide)

/-- Spec resolution stops at the first name the source schema cannot
resolve, with that name in the error. -/
theorem collectResults_error (df : DataFrame) :
    ∀ (sel : List SelectSpec) (s₀ : SelectSpec),
      sel.find? (fun s => (df.schema.get_field_full s.sname).isNone) = some s₀ →
      collectResults (resolveSpec df) sel = .error (.invalidColumnName s₀.sname) := by
  intro sel
  induction sel with
  | nil => intro s₀ h; simp at h
  | cons a as ih =>
    intro s₀ h
    simp only [List.find?_cons] at h
    by_cases hpa : (df.schema.get_field_full a.sname).isNone
    · rw [hpa] at h
      obtain rfl : a = s₀ := by simpa using h
      simp [collectResults, resolveSpec, Option.isNone_iff_eq_none.mp hpa]
    · rw [Bool.not_eq_true] at hpa
      rw [hpa] at h
      cases hopt : df.schema.get_field_full a.sname with
      | none => rw [hopt] at hpa; simp at hpa
      | some pf =>
        obtain ⟨pos, field⟩ := pf
        simp [collectResults, resolveSpec, hopt, ih s₀ h]

/-- When every spec resolves, spec resolution yields one renamed column
per spec, in order. -/
theorem collectResults_ok (df : DataFrame) :
    ∀ (sel : List SelectSpec),
      (∀ s ∈ sel, (df.schema.get_field_full s.sname).isSome) →
      ∃ cols, collectResults (resolveSpec df) sel = .ok cols ∧
        cols.length = sel.length ∧
        cols.map (fun pf => pf.2.name) = sel.map SelectSpec.with_name := by
  intro sel
  induction sel with
  | nil => intro _; exact ⟨[], rfl, rfl, rfl⟩
  | cons a as ih =>
    intro h
    obtain ⟨⟨pos, field⟩, hpf⟩ :=
      Option.isSome_iff_exists.mp (h a (List.mem_cons_self a as))
    obtain ⟨cols, hc, hl, hm⟩ := ih (fun s hs => h s (List.mem_cons_of_mem a hs))
    refine ⟨(pos, { field with name := a.with_name }) :: cols, ?_, ?_, ?_⟩
    · simp [collectResults, resolveSpec, hpf, hc]
    · simp [hl]
    · simp [hm]

/-- Pushing a list of fields onto a schema appends them to the field
vector in order. -/
theorem select_fold_fields :
    ∀ (cols : List (Nat × Field)) (s0 : Schema),
      (cols.foldl (fun sc pf => (sc.push_field pf.2).1) s0).fields
        = s0.fields ++ cols.map (fun pf => pf.2) := by
  intro cols
  induction cols with
  | nil => intro s0; simp
  | cons c cs ih =>
    intro s0
    rw [List.foldl_cons, ih]
    simp [Schema.push_field]

/-- The shape of the frame select produces once every spec resolved. -/
theorem select_ok_eq (df : DataFrame) (sel : List SelectSpec) (cols : List (Nat × Field))
    (hc : collectResults (resolveSpec df) sel = .ok cols) :
    select df sel = .ok
      { schema := cols.foldl (fun sc pf => (sc.push_field pf.2).1) (Schema.with_size cols.length),
        dim := ⟨(cols.foldl (fun sc pf => (sc.push_field pf.2).1) (Schema.with_size cols.length)).len,
                df.dim.c1⟩,
        data := (List.range df.dim.c1).foldl
          (fun acc i => acc ++ (cols.map (fun pf => pf.1)).map
            (fun col_index => df.data.getD (col_index + df.dim.c0 * i) Value.null)) [] } := by
  simp only [select]
  rw [hc]

/-- Claim C8: select resolves every column spec eagerly, failing with
InvalidColumnName at the first unresolved name; on success it builds the
output schema in the requested order and materializes an independent frame
with Dim (len specs, source row count); on the concrete a,b,c frame with
rows (0,1,2),(3,4,5),(6,7,8),(9,10,11), selecting b,c yields rows
(1,2),(4,5),(7,8),(10,11) with schema [b, c], and selecting a aliased to z
yields rows (0),(3),(6),(9) with schema [z]. -/
theorem select_spec :
    (∀ (df : DataFrame) (sel : List SelectSpec) (s₀ : SelectSpec),
        sel.find? (fun s => (df.schema.get_field_full s.sname).isNone) = some s₀ →
        select df sel = .error (.invalidColumnName s₀.sname)) ∧
    (∀ (df : DataFrame) (sel : List SelectSpec),
        (∀ s ∈ sel, (df.schema.get_field_full s.sname).isSome) →
        ∃ out, select df sel = .ok out ∧ out.dim = ⟨sel.length, df.dim.c1⟩ ∧
          out.schema.field_names = sel.map SelectSpec.with_name) ∧
    ((select exDf [.name "b", .name "c"]).map (fun o => (o.data, o.dim, o.schema.field_names))
      = .ok ([.number ⟨.int32 1⟩, .number ⟨.int32 2⟩, .number ⟨.int32 4⟩, .number ⟨.int32 5⟩,
              .number ⟨.int32 7⟩, .number ⟨.int32 8⟩, .number ⟨.int32 10⟩, .number ⟨.int32 11⟩],
             (⟨2, 4⟩ : Dim), ["b", "c"])) ∧
    ((select exDf [.alias "a" "z"]).map (fun o => (o.data, o.dim, o.schema.field_names))
      = .ok ([.number ⟨.int32 0⟩, .number ⟨.int32 3⟩, .number ⟨.int32 6⟩, .number ⟨.int32 9⟩],
             (⟨1, 4⟩ : Dim), ["z"])) := by
  refine ⟨?_, ?_, rfl, rfl⟩
  · intro df sel s₀ h
    simp only [select]
    rw [collectResults_error df sel s₀ h]
  · intro df sel h
    obtain ⟨cols, hc, hl, hm⟩ := collectResults_ok df sel h
    refine ⟨_, select_ok_eq df sel cols hc, ?_, ?_⟩
    · have hlen : (cols.foldl (fun sc pf => (sc.push_field pf.2).1)
          (Schema.with_size cols.length)).len = sel.length := by
        simp [Schema.len, select_fold_fields, Schema.with_size, Schema.new, hl]
      simp [hlen]
    · have hnames : (cols.foldl (fun sc pf => (sc.push_field pf.2).1)
          (Schema.with_size cols.length)).field_names = sel.map SelectSpec.with_name := by
        simp only [Schema.field_names, select_fold_fields, Schema.with_size, Schema.new]
        simpa [List.map_map, Function.comp] using hm
      simpa using hnames

/-- Witness for select_spec: an unresolved name fails eagerly, a resolved
one yields the requested shape. -/
theorem select_spec_witness :
    (select exDf [.name "q"] = .error (.invalidColumnName "q")) ∧
    (∃ out, select exDf [.name "a"] = .ok out ∧
        out.dim = ⟨[SelectSpec.name "a"].length, exDf.dim.c1⟩ ∧
        out.schema.field_names = [SelectSpec.name "a"].map SelectSpec.with_name) :=
  ⟨select_spec.1 exDf [.name "q"] (.name "q") rfl,
   select_spec.2.1 exDf [.name "a"] (by decide)⟩

/-- The buffer obtained by appending one Null to each of the first `k`
width-`c` rows of `d`, leaving the rest of `d` untouched. -/
def widenRows (c : Nat) : Nat → List Value → List Value
  | 0, d => d
  | k + 1, d => d.take c ++ Value.null :: widenRows c k (d.drop c)

/-- Widening k rows grows the buffer by exactly k cells. -/
theorem widenRows_length (c : Nat) : ∀ (k : Nat) (d : List Value),
    (widenRows c k d).length = d.length + k := by
  intro k
  induction k with
  | zero => intro d; rfl
  | succ k ih =>
    intro d
    simp only [widenRows, List.length_append, List.length_cons, ih,
      List.length_take, List.length_drop]
    omega

/-- Inserting past a fixed prefix inserts into the suffix. -/
theorem listInsertAt_append (xs ys : List α) (j : Nat) (a : α) :
    listInsertAt (xs ++ ys) (xs.length + j) a = xs ++ listInsertAt ys j a := by
  unfold listInsertAt
  rw [List.take_append, List.drop_append]
  simp

/-- Inserting Null at the end of row k of a buffer whose first k rows are
already widened widens row k as well. -/
theorem insert_widen (c : Nat) : ∀ (k : Nat) (d : List Value), c * (k + 1) ≤ d.length →
    listInsertAt (widenRows c k d) (k * (c + 1) + c) Value.null = widenRows c (k + 1) d := by
  intro k
  induction k with
  | zero =>
    intro d _
    simp [listInsertAt, widenRows]
  | succ k ih =>
    intro d h
    have hc : c ≤ d.length := by
      refine le_trans ?_ h
      have := Nat.mul_le_mul (Nat.le_refl c) (show 1 ≤ k + 2 by omega)
      simpa using this
    have hsplit : widenRows c (k + 1) d
        = (d.take c ++ [Value.null]) ++ widenRows c k (d.drop c) := by
      simp [widenRows]
    have hplen : (d.take c ++ [Value.null]).length = c + 1 := by
      simp [List.length_take]
      omega
    have hidx : (k + 1) * (c + 1) + c = (d.take c ++ [Value.null]).length + (k * (c + 1) + c) := by
      rw [hplen]
      ring
    rw [hsplit, hidx, listInsertAt_append]
    have hdrop : c * (k + 1) ≤ (d.drop c).length := by
      rw [List.length_drop]
      have h2 := h
      rw [Nat.mul_succ c (k + 1)] at h2
      omega
    rw [ih (d.drop c) hdrop]
    simp [widenRows]

/-- The push_column row loop, processed up to row k, widens exactly the
first k rows. -/
theorem push_column_foldl (c n : Nat) (d : List Value) (hd : d.length = c * n) :
    ∀ k, k ≤ n →
      (List.range k).foldl (push_column_step ⟨c + 1, n⟩ c) d = widenRows c k d := by
  intro k
  induction k with
  | zero => intro _; rfl
  | succ k ih =>
    intro hk
    rw [List.range_succ, List.foldl_append, ih (by omega), List.foldl_cons, List.foldl_nil]
    have hstep : ∀ buf : List Value, push_column_step ⟨c + 1, n⟩ c buf k
        = if k * (c + 1) + c > buf.length then buf ++ [Value.null]
          else listInsertAt buf (k * (c + 1) + c) Value.null := fun _ => rfl
    rw [hstep]
    have hblen : (widenRows c k d).length = c * n + k := by
      rw [widenRows_length, hd]
    have hmul : c * (k + 1) ≤ c * n := Nat.mul_le_mul (Nat.le_refl c) hk
    have harith : k * (c + 1) + c = c * (k + 1) + k := by ring
    rw [if_neg (by rw [hblen]; omega)]
    exact insert_widen c k d (by rw [hd]; exact hmul)

/-- Row r of the widened buffer is row r of the original buffer with a
Null appended. -/
theorem widenRows_row (c : Nat) : ∀ (r k : Nat) (d : List Value), r < k → c * k ≤ d.length →
    listSlice (widenRows c k d) ((c + 1) * r) ((c + 1) * r + (c + 1))
      = listSlice d (c * r) (c * r + c) ++ [Value.null] := by
  intro r
  induction r with
  | zero =>
    intro k d hr hl
    cases k with
    | zero => omega
    | succ k =>
      have hc : c ≤ d.length := by
        refine le_trans ?_ hl
        have := Nat.mul_le_mul (Nat.le_refl c) (show 1 ≤ k + 1 by omega)
        simpa using this
      have htake : (d.take c).length = c := by
        rw [List.length_take]
        omega
      simp only [widenRows, listSlice, Nat.mul_zero, List.drop_zero, Nat.zero_add,
        Nat.add_sub_cancel_left, Nat.sub_zero]
      rw [show c + 1 = (d.take c).length + 1 by rw [htake], List.take_append]
      simp
  | succ r ih =>
    intro k d hr hl
    cases k with
    | zero => omega
    | succ k =>
      have hc : c ≤ d.length := by
        refine le_trans ?_ hl
        have := Nat.mul_le_mul (Nat.le_refl c) (show 1 ≤ k + 1 by omega)
        simpa using this
      have htake : (d.take c ++ [Value.null]).length = c + 1 := by
        simp [List.length_take]
        omega
      have hsplit : widenRows c (k + 1) d
          = (d.take c ++ [Value.null]) ++ widenRows c k (d.drop c) := by
        simp [widenRows]
      have hdrop : c * k ≤ (d.drop c).length := by
        rw [List.length_drop]
        have h2 := hl
        rw [Nat.mul_succ] at h2
        omega
      have hoff : (c + 1) * (r + 1) = (d.take c ++ [Value.null]).length + (c + 1) * r := by
        rw [htake]
        ring
      calc listSlice (widenRows c (k + 1) d) ((c + 1) * (r + 1)) ((c + 1) * (r + 1) + (c + 1))
          = ((widenRows c (k + 1) d).drop ((c + 1) * (r + 1))).take (c + 1) := by
            simp [listSlice]
        _ = ((widenRows c k (d.drop c)).drop ((c + 1) * r)).take (c + 1) := by
            rw [hsplit, hoff, List.drop_append]
        _ = listSlice (widenRows c k (d.drop c)) ((c + 1) * r) ((c + 1) * r + (c + 1)) := by
            simp [listSlice]
        _ = listSlice (d.drop c) (c * r) (c * r + c) ++ [Value.null] := ih k (d.drop c) (by omega) hdrop
        _ = listSlice d (c * (r + 1)) (c * (r + 1) + c) ++ [Value.null] := by
            simp only [listSlice, Nat.add_sub_cancel_left, List.drop_drop]
            rw [show c + c * r = c * (r + 1) by ring]

/-- Claim C7: on a frame satisfying the layout invariant, push_column
increases the column count by exactly one, leaves the row count unchanged,
restores the layout invariant for the new dimensions, and rewrites every
existing row to its old contents with a Null appended at the new last
column. -/
theorem push_column_spec (df : DataFrame) (column : String)
    (hlen : df.data.length = df.dim.c0 * df.dim.c1) :
    (df.push_column column).dim.c0 = df.dim.c0 + 1 ∧
    (df.push_column column).dim.c1 = df.dim.c1 ∧
    (df.push_column column).data.length = (df.dim.c0 + 1) * df.dim.c1 ∧
    ∀ r, r < df.dim.c1 →
      (df.push_column column).row r = (df.row r).map (fun old => old ++ [Value.null]) := by
  have hdata : (df.push_column column).data = widenRows df.dim.c0 df.dim.c1 df.data := by
    show (List.range df.dim.c1).foldl
        (push_column_step ⟨df.dim.c0 + 1, df.dim.c1⟩ (df.dim.c0 + 1 - 1)) df.data = _
    rw [show df.dim.c0 + 1 - 1 = df.dim.c0 by omega]
    exact push_column_foldl df.dim.c0 df.dim.c1 df.data hlen df.dim.c1 (Nat.le_refl _)
  refine ⟨rfl, rfl, ?_, ?_⟩
  · rw [hdata, widenRows_length, hlen]
    ring
  · intro r hrlt
    have hd : (df.push_column column).dim = ⟨df.dim.c0 + 1, df.dim.c1⟩ := rfl
    have hrow_new : (df.push_column column).row r
        = some (listSlice (widenRows df.dim.c0 df.dim.c1 df.data) ((df.dim.c0 + 1) * r)
            ((df.dim.c0 + 1) * r + (df.dim.c0 + 1))) := by
      simp only [DataFrame.row, Dim.get_row_range, hd, hdata]
      rw [if_neg]
      rw [widenRows_length, hlen]
      have hm : (df.dim.c0 + 1) * (r + 1) ≤ (df.dim.c0 + 1) * df.dim.c1 :=
        Nat.mul_le_mul (Nat.le_refl _) hrlt
      have he : (df.dim.c0 + 1) * (r + 1) = (df.dim.c0 + 1) * r + (df.dim.c0 + 1) := by ring
      have he2 : (df.dim.c0 + 1) * df.dim.c1 = df.dim.c0 * df.dim.c1 + df.dim.c1 := by ring
      omega
    have hrow_old : df.row r
        = some (listSlice df.data (df.dim.c0 * r) (df.dim.c0 * r + df.dim.c0)) := by
      simp only [DataFrame.row, Dim.get_row_range]
      rw [if_neg]
      rw [hlen]
      have hm : df.dim.c0 * (r + 1) ≤ df.dim.c0 * df.dim.c1 :=
        Nat.mul_le_mul (Nat.le_refl _) hrlt
      have he : df.dim.c0 * (r + 1) = df.dim.c0 * r + df.dim.c0 := by ring
      omega
    rw [hrow_new, hrow_old]
    show some _ = some _
    exact congrArg some (widenRows_row df.dim.c0 r df.dim.c1 df.data hrlt (by omega))

/-- Witness for push_column_spec at a one-column, two-row frame. -/
theorem push_column_spec_witness :
    ((DataFrame.new ["a"] [[.number ⟨.int32 1⟩], [.number ⟨.int32 2⟩]]).push_column "b").dim.c0 = 2 ∧
    ((DataFrame.new ["a"] [[.number ⟨.int32 1⟩], [.number ⟨.int32 2⟩]]).push_column "b").dim.c1 = 2 ∧
    ((DataFrame.new ["a"] [[.number ⟨.int32 1⟩], [.number ⟨.int32 2⟩]]).push_column "b").row 0
      = ((DataFrame.new ["a"] [[.number ⟨.int32 1⟩], [.number ⟨.int32 2⟩]]).row 0).map
          (fun old => old ++ [Value.null]) := by
  have h := push_column_spec (DataFrame.new ["a"] [[.number ⟨.int32 1⟩], [.number ⟨.int32 2⟩]]) "b" rfl
  exact ⟨h.1, h.2.1, h.2.2.2 0 (by decide)⟩

end Retl
